import Mathlib

/-!
Verification of the bank-statement analyzer pipeline
(`src/services/bankAnalyzer.ts`) against its natural-language
specification.

The TypeScript source is shallowly embedded here:
* strings are processed as `List Char` (wrapped into `String` at the API
  boundary, matching the JS character-by-character loops);
* JS numbers are modelled as `ℚ` (every money value arising in the
  pipeline is finite, so `NaN`/`Infinity` never occur; the derive-stage
  finiteness filter is kept explicitly with an always-true predicate);
* JS `Date` is modelled by a proleptic-Gregorian `JsDate` together with
  the ECMAScript `MakeDay` overflow normalisation;
* fallible stages return `Except String`/`Option` where the source
  throws / returns `null`.
-/

-- The Batteries rational operations are `@[irreducible]`, which blocks
-- `decide` from evaluating concrete pipeline runs; re-allow unfolding
-- them (this changes elaboration only, not the checked proofs).
set_option allowUnsafeReducibility true
attribute [local semireducible] Rat.add Rat.mul Rat.inv Rat.sub

namespace BankAnalyzer

/-- Character-level model of `String.prototype.toUpperCase` (the merchant
strings the pipeline cares about are ASCII; multi-character Unicode case
mappings are outside the embedded alphabet). -/
def upChar (c : Char) : Char :=
  if 'a' ≤ c ∧ c ≤ 'z' then Char.ofNat (c.toNat - 32) else c

/-- Character-level model of `String.prototype.toLowerCase`. -/
def lowChar (c : Char) : Char :=
  if 'A' ≤ c ∧ c ≤ 'Z' then Char.ofNat (c.toNat + 32) else c

/-- The character class kept by `replace(/[^A-Z0-9 ]+/g, '')`. -/
def keepMerchChar (c : Char) : Bool :=
  decide (('A' ≤ c ∧ c ≤ 'Z') ∨ ('0' ≤ c ∧ c ≤ '9') ∨ c = ' ')

/-- JS whitespace class used by `String.prototype.trim` (the members that
fit in the embedded alphabet; `trim` also strips some exotic Unicode
space separators which never appear in the analysed CSVs). -/
def jsWhitespace (c : Char) : Bool :=
  c = ' ' || c = '\t' || c = '\n' || c = '\r' ||
  c = '\x0b' || c = '\x0c' || c = '\u00A0' || c = '\uFEFF' ||
  c = '\u2028' || c = '\u2029'

/-- `String.prototype.trim` on the character list. -/
def jsTrim (l : List Char) : List Char :=
  let a := l.dropWhile jsWhitespace
  (a.reverse.dropWhile jsWhitespace).reverse

/-- `trim` lifted back to `String`. -/
def jsTrimS (s : String) : String := String.mk (jsTrim s.data)

/-- `toUpperCase` lifted to `String`. -/
def toUpperStr (s : String) : String := String.mk (s.data.map upChar)

/-- `toLowerCase` lifted to `String`. -/
def toLowerStr (s : String) : String := String.mk (s.data.map lowChar)

/-- Does `hay` start with `needle`? (helper for the substring test). -/
def leadsWith : List Char → List Char → Bool
  | [], _ => true
  | _ :: _, [] => false
  | a :: as, b :: bs => a = b && leadsWith as bs

/-- Does the haystack contain `needle` as a contiguous subsequence?
Model of `String.prototype.includes`. -/
def containsSeq (needle : List Char) : List Char → Bool
  | [] => needle.isEmpty
  | c :: rest => leadsWith needle (c :: rest) || containsSeq needle rest

/-- `hay.includes(needle)` on `String`s. -/
def strIncludes (hay needle : String) : Bool := containsSeq needle.data hay.data

/-- `replace(/\s+/g, ' ')` for inputs whose only whitespace is `' '`
(after the `[^A-Z0-9 ]` strip, the space is the only whitespace left):
collapse every maximal run of spaces to a single space. -/
def squeezeSpaces : List Char → List Char
  | [] => []
  | [c] => [c]
  | c1 :: c2 :: rest =>
    if c1 = ' ' ∧ c2 = ' ' then squeezeSpaces (c2 :: rest)
    else c1 :: squeezeSpaces (c2 :: rest)

/-- `normaliseMerchant` (bankAnalyzer.ts:50-56): uppercase, strip
everything outside `[A-Z0-9 ]`, collapse whitespace, trim; empty input or
empty result falls back to `"UNKNOWN"`. -/
def normaliseMerchant (value : String) : String :=
  if value.data = [] then "UNKNOWN"
  else
    let t := jsTrim (squeezeSpaces ((value.data.map upChar).filter keepMerchChar))
    if t = [] then "UNKNOWN" else String.mk t

example : normaliseMerchant "  netflix.com  AU " = "NETFLIXCOM AU" := by decide
example : normaliseMerchant "///" = "UNKNOWN" := by decide
example : normaliseMerchant "" = "UNKNOWN" := by decide
example : normaliseMerchant "UNKNOWN" = "UNKNOWN" := by decide

/-! ## CSV tokenizer (`parseCsv`, bankAnalyzer.ts:109-150)

The source is an index loop with one character of lookahead (for the `""`
escape inside quotes and for the `\r\n` pair outside quotes).  The
embedding replaces the lookahead by two extra automaton modes so that the
scan is structurally recursive on the remaining characters:
`insidePend` = inside quotes, just saw a `"` whose meaning (escape or
closing quote) depends on the next character; `outsideSkipLF` = just
ended a row on `\r`, an immediately following `\n` is part of the same
terminator. -/

inductive CsvMode where
  | outside
  | outsideSkipLF
  | inside
  | insidePend
  deriving DecidableEq

/-- State threaded through the scan: the cell built so far, the row built
so far, and the completed rows (cells and rows are appended at the end,
exactly like the JS `pushCell`/`pushRow`). -/
structure CsvState where
  cur : List Char
  row : List (List Char)
  rows : List (List (List Char))
  deriving DecidableEq

/-- One character processed in unquoted context (the `else` branches of
the JS loop for `inQuotes = false`). -/
def csvStepOutside (c : Char) (st : CsvState) : CsvMode × CsvState :=
  if c = '"' then (.inside, st)
  else if c = ',' then (.outside, ⟨[], st.row ++ [st.cur], st.rows⟩)
  else if c = '\n' then (.outside, ⟨[], [], st.rows ++ [st.row ++ [st.cur]]⟩)
  else if c = '\r' then (.outsideSkipLF, ⟨[], [], st.rows ++ [st.row ++ [st.cur]]⟩)
  else (.outside, ⟨st.cur ++ [c], st.row, st.rows⟩)

/-- End of input (bankAnalyzer.ts:144-147): flush the pending cell, and
flush the pending row unless it is the single empty cell. -/
def csvEnd (st : CsvState) : List (List (List Char)) :=
  let row := st.row ++ [st.cur]
  if row.length > 1 ∨ (row.length = 1 ∧ st.cur ≠ []) then st.rows ++ [row]
  else st.rows

/-- The scan loop of `parseCsv`. -/
def csvRun : List Char → CsvMode → CsvState → List (List (List Char))
  | [], _, st => csvEnd st
  | c :: rest, mode, st =>
    match mode with
    | .inside =>
      if c = '"' then csvRun rest .insidePend st
      else csvRun rest .inside ⟨st.cur ++ [c], st.row, st.rows⟩
    | .insidePend =>
      -- the pending quote was an escape (`""` → literal `"`), or it closed
      -- the quoted section and `c` is reprocessed in unquoted context
      if c = '"' then csvRun rest .inside ⟨st.cur ++ ['"'], st.row, st.rows⟩
      else
        let (m, st') := csvStepOutside c st
        csvRun rest m st'
    | .outsideSkipLF =>
      if c = '\n' then csvRun rest .outside st
      else
        let (m, st') := csvStepOutside c st
        csvRun rest m st'
    | .outside =>
      let (m, st') := csvStepOutside c st
      csvRun rest m st'

/-- Does a row survive the final filter (bankAnalyzer.ts:149): some cell
is non-empty after trimming? -/
def rowHasContent (row : List (List Char)) : Bool :=
  row.any (fun cell => !(jsTrim cell).isEmpty)

/-- `parseCsv` (bankAnalyzer.ts:109-150). -/
def parseCsv (text : String) : List (List String) :=
  ((csvRun text.data .outside ⟨[], [], []⟩).filter rowHasContent).map
    (fun row => row.map String.mk)

example : parseCsv "a,b\nc,d" = [["a", "b"], ["c", "d"]] := by decide
example : parseCsv "a,\"b\nc,\"\"x\"\"\",e\r\nf" = [["a", "b\nc,\"x\"", "e"], ["f"]] := by decide
example : parseCsv "" = [] := by decide
example : parseCsv "  \n , \n" = [] := by decide
example : parseCsv "a\r\nb" = [["a"], ["b"]] := by decide

/-! ## Dates

JS `Date` values are modelled as proleptic-Gregorian calendar dates.
`new Date(year, monthIndex, day)` normalises out-of-range month/day by
rollover (ECMAScript `MakeDay`); this is reproduced with the standard
civil-from-days / days-from-civil conversions. -/

structure JsDate where
  year : Int
  /-- 1-based month, 1..12 (the JS accessor `getMonth()` is this minus 1). -/
  month : Int
  /-- day of month, 1..31 (`getDate()`). -/
  day : Int
  deriving DecidableEq

/-- Days since 1970-01-01 of a civil date with in-range month 1..12. -/
def daysFromCivil (y m d : Int) : Int :=
  let y := if m ≤ 2 then y - 1 else y
  let era := y.fdiv 400
  let yoe := y - era * 400
  let mp := if m > 2 then m - 3 else m + 9
  let doy := (153 * mp + 2).fdiv 5 + d - 1
  let doe := yoe * 365 + yoe.fdiv 4 - yoe.fdiv 100 + doy
  era * 146097 + doe - 719468

/-- Civil date of a count of days since 1970-01-01. -/
def civilFromDays (z0 : Int) : JsDate :=
  let z := z0 + 719468
  let era := z.fdiv 146097
  let doe := z - era * 146097
  let yoe := (doe - doe.fdiv 1460 + doe.fdiv 36524 - doe.fdiv 146096).fdiv 365
  let y := yoe + era * 400
  let doy := doe - (365 * yoe + yoe.fdiv 4 - yoe.fdiv 100)
  let mp := (5 * doy + 2).fdiv 153
  let d := doy - (153 * mp + 2).fdiv 5 + 1
  let m := if mp < 10 then mp + 3 else mp - 9
  ⟨if m ≤ 2 then y + 1 else y, m, d⟩

/-- `new Date(y, monthIndex, day)` for `y ≥ 100` (the analyzer always
passes a year ≥ 100, so the constructor's 1900-offset rule for two-digit
years never fires): roll the 0-based month index and the day into range. -/
def jsMakeDate (y mIdx d : Int) : JsDate :=
  let ym := y * 12 + mIdx
  civilFromDays (daysFromCivil (ym.fdiv 12) (ym.emod 12 + 1) 1 + (d - 1))

example : jsMakeDate 2025 0 13 = ⟨2025, 1, 13⟩ := by decide
example : jsMakeDate 2025 12 5 = ⟨2026, 1, 5⟩ := by decide
example : jsMakeDate 2025 1 30 = ⟨2025, 3, 2⟩ := by decide
example : jsMakeDate 2024 1 30 = ⟨2024, 3, 1⟩ := by decide

def isDigitCh (c : Char) : Bool := decide ('0' ≤ c ∧ c ≤ '9')

def digitsToNat (l : List Char) : Nat :=
  l.foldl (fun acc c => acc * 10 + (c.toNat - 48)) 0

/-- The anchored regex `^(\d{1,2})[\/\-](\d{1,2})[\/\-](\d{2,4})$`
(bankAnalyzer.ts:82).  Because each `\d{1,2}` group is followed by a
non-digit separator and `\d{2,4}` is followed by the anchor, greedy
matching with backtracking succeeds exactly when the three maximal digit
runs have the required lengths and are separated by single `/` or `-`
characters; that deterministic reading is implemented here.  Returns the
three numeric captures. -/
def matchSlashPattern (l : List Char) : Option (Nat × Nat × Nat) :=
  let p1 := l.takeWhile isDigitCh
  let r1 := l.dropWhile isDigitCh
  if p1.length < 1 ∨ 2 < p1.length then none else
  match r1 with
  | s1 :: r2 =>
    if s1 = '/' ∨ s1 = '-' then
      let p2 := r2.takeWhile isDigitCh
      let r3 := r2.dropWhile isDigitCh
      if p2.length < 1 ∨ 2 < p2.length then none else
      match r3 with
      | s2 :: r4 =>
        if s2 = '/' ∨ s2 = '-' then
          let p3 := r4.takeWhile isDigitCh
          let r5 := r4.dropWhile isDigitCh
          if 2 ≤ p3.length ∧ p3.length ≤ 4 ∧ r5 = [] then
            some (digitsToNat p1, digitsToNat p2, digitsToNat p3)
          else none
        else none
      | [] => none
    else none
  | [] => none

/-- Fallback `new Date(string)` parsing (bankAnalyzer.ts:94).  ECMA-262
only mandates the ISO 8601 interchange format for `Date.parse`; the
date-only `YYYY-MM-DD` form is modelled (with calendar-valid month and
day), every other string is treated as an invalid date.  The analyzer's
claims only exercise this fallback on strings that no engine parses. -/
def jsDateFallback (l : List Char) : Option JsDate :=
  match l with
  | [y1, y2, y3, y4, '-', m1, m2, '-', d1, d2] =>
    if [y1, y2, y3, y4, m1, m2, d1, d2].all isDigitCh then
      let y : Int := digitsToNat [y1, y2, y3, y4]
      let m : Int := digitsToNat [m1, m2]
      let d : Int := digitsToNat [d1, d2]
      if 1 ≤ m ∧ m ≤ 12 ∧ 1 ≤ d ∧
          d ≤ daysFromCivil (if m = 12 then y + 1 else y) (if m = 12 then 1 else m + 1) 1
              - daysFromCivil y m 1 then
        some ⟨y, m, d⟩
      else none
    else none
  | _ => none

/-- `parseDate` (bankAnalyzer.ts:77-96). -/
def parseDate (value : String) : Option JsDate :=
  if value.data = [] then none else
  let trimmed := jsTrim value.data
  if trimmed = [] then none else
  match matchSlashPattern trimmed with
  | some (part1, part2, part3) =>
    let dayFirst := 12 < part1
    let day := if dayFirst then part1 else part2
    let month := if dayFirst then part2 else part1
    let year := part3
    let normalizedYear : Int := if year < 100 then 2000 + (year : Int) else (year : Int)
    -- with the arguments in range, `new Date(...)` never yields NaN, so
    -- the `Number.isNaN` guard of the source never fires here
    some (jsMakeDate normalizedYear ((month : Int) - 1) (day : Int))
  | none => jsDateFallback trimmed

example : parseDate "13/01/2025" = some ⟨2025, 1, 13⟩ := by decide
example : parseDate "03/04/2025" = some ⟨2025, 3, 4⟩ := by decide
example : parseDate " 1-2-99 " = some ⟨2099, 1, 2⟩ := by decide
example : parseDate "2025-07-15" = some ⟨2025, 7, 15⟩ := by decide
example : parseDate "Transaction Date" = none := by decide
example : parseDate "" = none := by decide
example : parseDate "123/4/2025" = none := by decide

/-! ## Money values (`cleanMoneyValue`, bankAnalyzer.ts:98-107)

JS numbers are modelled as `ℚ`.  `parseFloat` is modelled on its input
alphabet here: after `replace(/[^\d.\-]/g, '')` only digits, `.` and `-`
remain, so the exponent/`Infinity` forms of full `parseFloat` cannot
occur. -/

def moneyKeepChar (c : Char) : Bool := isDigitCh c || c = '.' || c = '-'

/-- `Math.abs`. -/
def jsAbs (q : ℚ) : ℚ := if q < 0 then -q else q

/-- `parseFloat` on a sign-free string of digits, dots and minus signs:
an integer part, optionally a dot and a fraction part, parsing stops at
the first character that fits neither; `none` models `NaN` (no digit
consumed). -/
def parseFloatCore (l : List Char) : Option ℚ :=
  let ip := l.takeWhile isDigitCh
  let r := l.dropWhile isDigitCh
  match r with
  | '.' :: r2 =>
    let fp := r2.takeWhile isDigitCh
    if ip = [] ∧ fp = [] then none
    else some ((digitsToNat ip : ℚ) + (digitsToNat fp : ℚ) / (10 : ℚ) ^ fp.length)
  | _ => if ip = [] then none else some (digitsToNat ip : ℚ)

def jsParseFloat (l : List Char) : Option ℚ :=
  match l with
  | '-' :: rest => (parseFloatCore rest).map (fun q => -q)
  | _ => parseFloatCore l

/-- `cleanMoneyValue` on a present string value. -/
def cleanMoneyValue (value : String) : ℚ :=
  let str := jsTrim value.data
  if str = [] then 0 else
  let negative := str.contains '(' && str.contains ')'
  let stripped := str.filter moneyKeepChar
  match jsParseFloat stripped with
  | none => 0
  | some numeric => if negative then -(jsAbs numeric) else numeric

/-- `cleanMoneyValue` including the `null`/`undefined` guard
(bankAnalyzer.ts:99): a missing cell is 0. -/
def cleanMoneyOpt : Option String → ℚ
  | none => 0
  | some s => cleanMoneyValue s

example : cleanMoneyValue "50.00" = 50 := by decide
example : cleanMoneyValue "$1,234.50" = (2469 : ℚ) / 2 := by decide
example : cleanMoneyValue "(50.00)" = -50 := by decide
example : cleanMoneyValue "-12" = -12 := by decide
example : cleanMoneyValue "" = 0 := by decide
example : cleanMoneyValue "--5" = 0 := by decide
example : cleanMoneyValue ".5" = (1 : ℚ) / 2 := by decide

/-! ## Record builder (`rowsToRecords`, bankAnalyzer.ts:152-162)

A JS object with string keys is modelled as an insertion-ordered
association list: assigning to an existing key updates it in place,
assigning to a fresh key appends it, and `Object.keys` is the list of
first components. -/

abbrev Rec : Type := List (String × String)

/-- `record[key]` — `none` models `undefined`. -/
def recGet (r : Rec) (key : String) : Option String :=
  (r.find? (fun kv => kv.1 = key)).map (fun kv => kv.2)

/-- `record[key] = value`. -/
def recSet (r : Rec) (key value : String) : Rec :=
  if r.any (fun kv => kv.1 = key) then
    r.map (fun kv => if kv.1 = key then (key, value) else kv)
  else r ++ [(key, value)]

/-- One data row keyed by the (already trimmed) header: the header cell at
the same position becomes the key, an empty header cell falls back to the
synthetic `column_N` key, and a row shorter than the header yields `''`
for the missing cells. -/
def toRecord (header : List String) (row : List String) : Rec :=
  header.enum.foldl
    (fun rec ic =>
      recSet rec (if ic.2 = "" then "column_" ++ toString ic.1 else ic.2) (row.getD ic.1 ""))
    ([] : Rec)

/-- `rowsToRecords` (bankAnalyzer.ts:152-162): the first row of the whole
row list is the header, every later row becomes a record. -/
def rowsToRecords (rows : List (List String)) : List Rec :=
  match rows with
  | [] => []
  | hd :: tl => tl.map (toRecord (hd.map jsTrimS))

example :
    rowsToRecords [["Date", " Amount", ""], ["1/2/25", "5", "x", "y"], ["3"]] =
      [[("Date", "1/2/25"), ("Amount", "5"), ("column_2", "x")],
       [("Date", "3"), ("Amount", ""), ("column_2", "")]] := by decide

/-! ## Column inference and standardizer
(`detectColumn`/`standardiseRecords`, bankAnalyzer.ts:164-224) -/

/-- `detectColumn` (bankAnalyzer.ts:164-165): the first key containing one
of the keywords case-insensitively. -/
def detectColumn (recordKeys : List String) (keywords : List String) : Option String :=
  recordKeys.find? (fun key => keywords.any (fun kw => strIncludes (toLowerStr key) kw))

instance {ε α : Type} [DecidableEq ε] [DecidableEq α] : DecidableEq (Except ε α) := fun x y =>
  match x, y with
  | .ok a, .ok b => if h : a = b then .isTrue (by rw [h]) else .isFalse (by simp [h])
  | .error a, .error b => if h : a = b then .isTrue (by rw [h]) else .isFalse (by simp [h])
  | .ok _, .error _ => .isFalse (by simp)
  | .error _, .ok _ => .isFalse (by simp)

structure StandardisedTransaction where
  date : JsDate
  description : String
  amount : ℚ
  deriving DecidableEq

/-- The columns inferred once per batch from the first record's keys. -/
structure ColumnInfo where
  dateCol : String
  descCol : String
  amountCols : List String
  indicatorCol : Option String
  debitCol : Option String
  creditCol : Option String
  deriving DecidableEq

def dateErrMsg (sourceName : String) : String :=
  "[" ++ sourceName ++ "] Could not determine date column."

def amountErrMsg (sourceName : String) : String :=
  "[" ++ sourceName ++ "] Could not determine amount columns."

/-- The body of the `records.forEach` loop (bankAnalyzer.ts:189-221),
sequenced so that the amount-columns throw aborts the whole run exactly
where the source throws: after the row's date parsed and neither an
amount column nor a debit/credit column exists.  Rows whose date fails to
parse are skipped. -/
def stdRows (sourceName : String) (ci : ColumnInfo) : List Rec → Except String (List StandardisedTransaction)
  | [] => .ok []
  | row :: rest =>
    match parseDate ((recGet row ci.dateCol).getD "") with
    | none => stdRows sourceName ci rest
    | some parsedDate =>
      let description := (recGet row ci.descCol).getD ""
      match ci.amountCols with
      | amtCol :: _ =>
        let amount := cleanMoneyOpt (recGet row amtCol)
        let amount :=
          match ci.indicatorCol with
          | some indCol =>
            let indicator := toUpperStr ((recGet row indCol).getD "")
            if strIncludes indicator "DR" then -(jsAbs amount)
            else if strIncludes indicator "CR" then jsAbs amount
            else amount
          | none => amount
        (stdRows sourceName ci rest).map
          (fun l => ⟨parsedDate, description, amount⟩ :: l)
      | [] =>
        if ci.debitCol.isSome || ci.creditCol.isSome then
          let debit := cleanMoneyOpt (ci.debitCol.bind (recGet row))
          let credit := cleanMoneyOpt (ci.creditCol.bind (recGet row))
          (stdRows sourceName ci rest).map
            (fun l => ⟨parsedDate, description, credit - jsAbs debit⟩ :: l)
        else .error (amountErrMsg sourceName)

/-- `standardiseRecords` (bankAnalyzer.ts:167-224). -/
def standardiseRecords (records : List Rec) (sourceName : String) :
    Except String (List StandardisedTransaction) :=
  match records with
  | [] => .ok []
  | r0 :: _ =>
    let columns := r0.map (fun kv => kv.1)
    match detectColumn columns ["date"] with
    | none => .error (dateErrMsg sourceName)
    | some dateCol =>
      let descCol :=
        match detectColumn columns
            ["description", "details", "narration", "memo", "payee", "merchant", "reference"] with
        | some c => c
        | none =>
          match columns.find? (fun col => col ≠ dateCol) with
          | some c => c
          | none => dateCol
      let amountCols := columns.filter (fun col => strIncludes (toLowerStr col) "amount")
      let indicatorCol :=
        detectColumn columns ["dr/cr", "debit/credit", "credit/debit", "dc flag", "cr/dr"]
      let debitCol := detectColumn columns ["debit", "withdrawal"]
      let creditCol := detectColumn columns ["credit", "deposit"]
      stdRows sourceName ⟨dateCol, descCol, amountCols, indicatorCol, debitCol, creditCol⟩ records

example :
    standardiseRecords
      [[("Date", "13/01/2025"), ("Details", "COLES"), ("Amount", "(12.50)"), ("DR/CR flag", "dr")]]
      "f" = .ok [⟨⟨2025, 1, 13⟩, "COLES", -(25 : ℚ)/2⟩] := by decide
example :
    standardiseRecords [[("Foo", "1"), ("Bar", "2")]] "src" =
      .error "[src] Could not determine date column." := by decide
example :
    standardiseRecords [[("Date", "13/01/2025"), ("Stuff", "x")]] "src" =
      .error "[src] Could not determine amount columns." := by decide
example :
    standardiseRecords [[("Date", "junk"), ("Stuff", "x")]] "src" = .ok [] := by decide

/-! ## Classifier (bankAnalyzer.ts:15-75) -/

def anyIncl (value : String) (keys : List String) : Bool :=
  keys.any (fun k => strIncludes value k)

/-- `inferCategory` (bankAnalyzer.ts:58-71): each regex is an alternation
of literal substrings, so `/(A|B)/.test(v)` is `v` containing `A` or `B`;
ordered rules, first match wins. -/
def inferCategory (merchant : String) : String :=
  let value := toUpperStr merchant
  if anyIncl value ["RENT", "REALESTATE", "REALTY"] then "Rent"
  else if anyIncl value ["REGISTRATION", " REGO", "TRANSPORT DEPT"] then "Rego"
  else if anyIncl value ["INSURANCE", "NRMA", "AAMI", "ALLIANZ"] then "Insurance"
  else if anyIncl value ["ENERGY", "POWER", "AGL", "ELECTRICITY", "WATER", "GAS"] then "Utilities"
  else if anyIncl value ["OPTUS", "TELSTRA", "VODAFONE", "AMAYSIM"] then "Phone & Internet"
  else if anyIncl value ["UBER", "TRANSLINK", "GO CARD"] then "Transport"
  else if anyIncl value ["COLES", "WOOLWORTHS", "ALDI", "IGA", "GROCER"] then "Groceries"
  else if anyIncl value ["MCDONALDS", "SUSHI", "CAFE", "BUTCHER"] then "Eating Out"
  else if anyIncl value ["NETFLIX", "SPOTIFY", "APPLECOMBILL", "CHATGPT", "AMZNPRIME"] then "Subscriptions"
  else if anyIncl value ["PARKING", "WESTFIELD", "SHOPPING"] then "Parking"
  else "Unknown"

def MACRO_CATEGORY_MAP : List (String × String) :=
  [("Rent", "Essential"), ("Rego", "Essential"), ("Insurance", "Essential"),
   ("Utilities", "Essential"), ("Groceries", "Essential"), ("Transport", "Essential"),
   ("Phone & Internet", "Essential"), ("Income", "Income"), ("Salary", "Income"),
   ("Side gig / Misc", "Income"), ("Subscriptions", "Lifestyle"), ("Eating Out", "Lifestyle"),
   ("Parking", "Lifestyle"), ("Shopping", "Lifestyle"), ("Entertainment", "Lifestyle"),
   ("Unknown", "Lifestyle")]

/-- `getMacroCategory` (bankAnalyzer.ts:73). -/
def getMacroCategory (category : String) : String :=
  ((MACRO_CATEGORY_MAP.find? (fun kv => kv.1 = category)).map (fun kv => kv.2)).getD "Lifestyle"

/-- `isInternalTransfer` (bankAnalyzer.ts:75). -/
def isInternalTransfer (merchant : String) : Bool := strIncludes merchant "TRANSFER"

/-! ## Transaction deriver (`deriveTransactions`, bankAnalyzer.ts:226-242) -/

/-- `String(n).padStart(2, '0')`. -/
def pad2 (n : Int) : String :=
  let s := toString n
  if s.length < 2 then "0" ++ s else s

/-- The month bucket `` `${getFullYear()}-${String(getMonth()+1).padStart(2,'0')}` ``. -/
def monthKeyOf (d : JsDate) : String := toString d.year ++ "-" ++ pad2 d.month

example : monthKeyOf ⟨2025, 3, 14⟩ = "2025-03" := by decide
example : monthKeyOf ⟨2025, 11, 2⟩ = "2025-11" := by decide

structure DerivedTransaction where
  date : JsDate
  description : String
  amount : ℚ
  monthKey : String
  isInflow : Bool
  isOutflow : Bool
  absAmount : ℚ
  merchantNorm : String
  day : Int
  isInternal : Bool
  deriving DecidableEq

/-- `!Number.isNaN(x) && Number.isFinite(x)` — every rational models a
finite, non-NaN JS number, so the defensive filter keeps everything. -/
def isFiniteQ (_ : ℚ) : Bool := true

/-- `deriveTransactions` (bankAnalyzer.ts:226-242). -/
def deriveTransactions (transactions : List StandardisedTransaction) : List DerivedTransaction :=
  (transactions.map (fun tx =>
    let merchantNorm := normaliseMerchant tx.description
    { date := tx.date
      description := tx.description
      amount := tx.amount
      monthKey := monthKeyOf tx.date
      isInflow := decide (0 < tx.amount)
      isOutflow := decide (tx.amount < 0)
      absAmount := jsAbs tx.amount
      merchantNorm := merchantNorm
      day := tx.date.day
      isInternal := isInternalTransfer merchantNorm })).filter
    (fun tx => isFiniteQ tx.amount)

/-! ## Aggregators (bankAnalyzer.ts:10-13, 244-393) -/

def RECURRING_MIN_MONTHS : Nat := 2
def RECURRING_MIN_TX : Nat := 2
def LEAKAGE_TOP_N : Nat := 10

/-- `Number.parseFloat(x.toFixed(0))` for the non-negative amounts fed to
it (`AMOUNT_ROUND_DECIMALS = 0`): the nearest integer, ties rounded up. -/
def roundFix0 (q : ℚ) : Int := ⌊q + 1 / 2⌋

/-- The expression
`new Set([...(n ? Array.from(Array(n).keys()) : []), monthKey]).size`
(bankAnalyzer.ts:270, 309, 363): the set holds the *numbers* `0..n-1`
and the month *string*, so its size is `n + 1` — the previous months are
not remembered. -/
def jsSetSize (n : Nat) (monthKey : String) : Nat :=
  (((if n = 0 then [] else (List.range n).map Sum.inl) ++ [Sum.inr monthKey] :
      List (Nat ⊕ String)).dedup).length

/-- The `if (!m.has(k)) m.set(k, init); update(m.get(k)!)` pattern used by
every aggregator, on an insertion-ordered association list (JS `Map`
preserves insertion order). -/
def mapUpsert {β : Type} (m : List (String × β)) (k : String) (init : β) (upd : β → β) :
    List (String × β) :=
  let m := if m.any (fun kv => kv.1 = k) then m else m ++ [(k, init)]
  m.map (fun kv => if kv.1 = k then (kv.1, upd kv.2) else kv)

structure RecurringExpense where
  name : String
  averageAmount : ℚ
  category : String
  macroCategory : String
  transactionCount : Nat
  monthCount : Nat
  estimatedMonthlyCost : ℚ
  deriving DecidableEq

/-- `sort((a, b) => b.estimatedMonthlyCost - a.estimatedMonthlyCost)`:
stable descending sort by estimated monthly cost. -/
def sortByCostDesc (l : List RecurringExpense) : List RecurringExpense :=
  l.insertionSort (fun a b => b.estimatedMonthlyCost ≤ a.estimatedMonthlyCost)

/-- `summarizeRecurringExpenses` (bankAnalyzer.ts:244-286). -/
def summarizeRecurringExpenses (transactions : List DerivedTransaction) :
    List RecurringExpense :=
  let outflows := transactions.filter (fun tx => tx.isOutflow && !tx.isInternal)
  let recurringMap := outflows.foldl
    (fun m tx =>
      let roundedAmount := roundFix0 tx.absAmount
      let bucketKey := tx.merchantNorm ++ "|" ++ toString roundedAmount
      let category := inferCategory tx.merchantNorm
      mapUpsert m bucketKey
        (⟨tx.merchantNorm, 0, category, getMacroCategory category, 0, 0, 0⟩ : RecurringExpense)
        (fun e =>
          { e with
            transactionCount := e.transactionCount + 1
            averageAmount := e.averageAmount + tx.absAmount
            monthCount := jsSetSize e.monthCount tx.monthKey }))
    []
  let recurring :=
    (((recurringMap.map (fun kv => kv.2)).map
        (fun e =>
          { e with
            averageAmount :=
              if 0 < e.transactionCount then e.averageAmount / (e.transactionCount : ℚ)
              else 0 })).filter
      (fun e => RECURRING_MIN_TX ≤ e.transactionCount && RECURRING_MIN_MONTHS ≤ e.monthCount)).map
      (fun e => { e with estimatedMonthlyCost := e.averageAmount })
  sortByCostDesc recurring

structure ExpenseCategorySummary where
  category : String
  macroCategory : String
  totalSpend : ℚ
  monthCount : Nat
  averageMonthlySpend : ℚ
  deriving DecidableEq

/-- `summarizeByCategory` (bankAnalyzer.ts:288-316). -/
def summarizeByCategory (transactions : List DerivedTransaction)
    (getValue : DerivedTransaction → ℚ) : List ExpenseCategorySummary :=
  let outflows := transactions.filter (fun tx => tx.isOutflow && !tx.isInternal)
  let summaryMap := outflows.foldl
    (fun m tx =>
      let category := inferCategory tx.merchantNorm
      mapUpsert m category
        (⟨category, getMacroCategory category, 0, 0, 0⟩ : ExpenseCategorySummary)
        (fun e =>
          { e with
            totalSpend := e.totalSpend + jsAbs (getValue tx)
            monthCount := jsSetSize e.monthCount tx.monthKey }))
    []
  (summaryMap.map (fun kv => kv.2)).map
    (fun e =>
      { e with
        averageMonthlySpend :=
          if e.monthCount ≠ 0 then e.totalSpend / (e.monthCount : ℚ) else e.totalSpend })

structure MacroCategorySummary where
  macroCategory : String
  totalSpend : ℚ
  monthCount : Nat
  averageMonthlySpend : ℚ
  deriving DecidableEq

/-- `summarizeByMacroCategory` (bankAnalyzer.ts:318-339). -/
def summarizeByMacroCategory (categories : List ExpenseCategorySummary) :
    List MacroCategorySummary :=
  let summaryMap := categories.foldl
    (fun m category =>
      mapUpsert m category.macroCategory
        (⟨category.macroCategory, 0, 0, 0⟩ : MacroCategorySummary)
        (fun e =>
          { e with
            totalSpend := e.totalSpend + category.totalSpend
            monthCount := max e.monthCount category.monthCount }))
    []
  (summaryMap.map (fun kv => kv.2)).map
    (fun e =>
      { e with
        averageMonthlySpend :=
          if e.monthCount ≠ 0 then e.totalSpend / (e.monthCount : ℚ) else e.totalSpend })

structure IncomeSource where
  name : String
  totalAmount : ℚ
  averageAmount : ℚ
  transactionCount : Nat
  monthCount : Nat
  averageMonthlyAmount : ℚ
  type : String
  macroCategory : String
  deriving DecidableEq

/-- `summarizeIncome` (bankAnalyzer.ts:341-371). -/
def summarizeIncome (transactions : List DerivedTransaction) : List IncomeSource :=
  let inflows := transactions.filter (fun tx => tx.isInflow && !tx.isInternal)
  let summaryMap := inflows.foldl
    (fun m tx =>
      let category := inferCategory tx.merchantNorm
      mapUpsert m tx.merchantNorm
        (⟨tx.merchantNorm, 0, 0, 0, 0, 0,
          if category = "Unknown" then "Income" else category,
          getMacroCategory category⟩ : IncomeSource)
        (fun e =>
          { e with
            totalAmount := e.totalAmount + tx.amount
            transactionCount := e.transactionCount + 1
            monthCount := jsSetSize e.monthCount tx.monthKey }))
    []
  (summaryMap.map (fun kv => kv.2)).map
    (fun e =>
      { e with
        averageAmount :=
          if e.transactionCount ≠ 0 then e.totalAmount / (e.transactionCount : ℚ)
          else e.totalAmount
        averageMonthlyAmount :=
          if e.monthCount ≠ 0 then e.totalAmount / (e.monthCount : ℚ) else e.totalAmount })

structure MonthlyBreakdown where
  month : String
  totalInflow : ℚ
  totalOutflow : ℚ
  savings : ℚ
  transactionCount : Nat
  deriving DecidableEq

/-- Lexicographic comparison of UTF-16-free character lists, modelling the
default `Array.prototype.sort` string comparator (the month keys are
ASCII, where code-unit and code-point order agree). -/
def charListLe : List Char → List Char → Bool
  | [], _ => true
  | _ :: _, [] => false
  | a :: as, b :: bs => a < b || (a = b && charListLe as bs)

/-- First-occurrence deduplication: `Array.from(new Set(xs))`. -/
def dedupFirst (l : List String) : List String :=
  l.foldl (fun acc m => if m ∈ acc then acc else acc ++ [m]) []

/-- The per-month body of `summarizeMonthly`'s map (bankAnalyzer.ts:375-387). -/
def mkMonthEntry (transactions : List DerivedTransaction) (month : String) : MonthlyBreakdown :=
  let monthTx := transactions.filter (fun tx => tx.monthKey == month)
  let totalInflow :=
    ((monthTx.filter (fun tx => tx.isInflow && !tx.isInternal)).map (fun tx => tx.amount)).sum
  let totalOutflow :=
    ((monthTx.filter (fun tx => tx.isOutflow && !tx.isInternal)).map (fun tx => tx.absAmount)).sum
  { month := month
    totalInflow := totalInflow
    totalOutflow := totalOutflow
    savings := totalInflow - totalOutflow
    transactionCount := monthTx.length }

/-- `summarizeMonthly` (bankAnalyzer.ts:373-388). -/
def summarizeMonthly (transactions : List DerivedTransaction) : List MonthlyBreakdown :=
  let months := (dedupFirst (transactions.map (fun tx => tx.monthKey))).insertionSort
    (fun a b => charListLe a.data b.data = true)
  months.map (mkMonthEntry transactions)

/-- `summarizeLeakage` (bankAnalyzer.ts:390-393). -/
def summarizeLeakage (recurring : List RecurringExpense) : List RecurringExpense :=
  (sortByCostDesc recurring).take LEAKAGE_TOP_N

/-! ## KPI synthesis and the full pipeline (bankAnalyzer.ts:395-485) -/

structure Kpis where
  monthsCovered : List String
  monthlyAverageSpend : ℚ
  monthlyAverageSavings : ℚ
  totalTransactions : Nat
  totalInflowTransactions : Nat
  totalOutflowTransactions : Int
  totalAverageMonthlyIncome : ℚ
  recurringEssential : List RecurringExpense
  recurringLifestyle : List RecurringExpense
  leakageHotspots : List RecurringExpense
  expenseByMacro : List MacroCategorySummary
  deriving DecidableEq

/-- `summarizeKpis` (bankAnalyzer.ts:395-425); `(breakdown.length || 1)`
substitutes denominator 1 for an empty breakdown. -/
def summarizeKpis (breakdown : List MonthlyBreakdown) (recurring : List RecurringExpense)
    (incomeSources : List IncomeSource) (macroSpend : List MacroCategorySummary) : Kpis :=
  let denom : ℚ := if breakdown.length = 0 then 1 else (breakdown.length : ℚ)
  let totalTransactions := (breakdown.map (fun b => b.transactionCount)).sum
  let totalInflowTransactions := (incomeSources.map (fun src => src.transactionCount)).sum
  { monthsCovered := breakdown.map (fun b => b.month)
    monthlyAverageSpend := ((breakdown.map (fun b => b.totalOutflow)).sum) / denom
    monthlyAverageSavings := ((breakdown.map (fun b => b.savings)).sum) / denom
    totalTransactions := totalTransactions
    totalInflowTransactions := totalInflowTransactions
    totalOutflowTransactions := (totalTransactions : Int) - (totalInflowTransactions : Int)
    totalAverageMonthlyIncome := ((breakdown.map (fun b => b.totalInflow)).sum) / denom
    recurringEssential := recurring.filter (fun r => r.macroCategory == "Essential")
    recurringLifestyle := recurring.filter (fun r => r.macroCategory == "Lifestyle")
    leakageHotspots := summarizeLeakage recurring
    expenseByMacro := macroSpend }

structure BankStatementAnalysis where
  recurringExpenses : List RecurringExpense
  monthlyBreakdown : List MonthlyBreakdown
  incomeSources : List IncomeSource
  expenseByCategory : List ExpenseCategorySummary
  expenseByMacro : List MacroCategorySummary
  totalAverageMonthlyIncome : ℚ
  monthlyAverageSavings : ℚ
  monthlyAverageSpend : ℚ
  totalTransactions : Nat
  totalInflowTransactions : Nat
  totalOutflowTransactions : Int
  recurringEssential : List RecurringExpense
  recurringLifestyle : List RecurringExpense
  leakageHotspots : List RecurringExpense
  monthsCovered : List String
  startDate : String
  endDate : String
  employer : Option String
  employmentType : String
  deriving DecidableEq

/-- `analyzeBankStatements` (bankAnalyzer.ts:427-485) on the already-read
file contents: every file's rows are concatenated, records and column
inference happen once for the whole batch, and the summaries are
assembled into the final analysis. -/
def analyzeBankStatements (fileContents : List String)
    (employerHint : Option String) (employmentType : Option String) :
    Except String BankStatementAnalysis :=
  let allRows := (fileContents.map parseCsv).flatten
  let records := rowsToRecords allRows
  match standardiseRecords records "Uploaded CSVs" with
  | .error e => .error e
  | .ok standardised =>
    let derived := deriveTransactions standardised
    let recurring := summarizeRecurringExpenses derived
    let categories := summarizeByCategory derived (fun tx => tx.amount)
    let macroCategories := summarizeByMacroCategory categories
    let income := summarizeIncome derived
    let monthlyBreakdown := summarizeMonthly derived
    let kpis := summarizeKpis monthlyBreakdown recurring income macroCategories
    let fullTime :=
      match employmentType with
      | some et => strIncludes (toLowerStr et) "full"
      | none => false
    let employerFromIncome :=
      if fullTime then (income.find? (fun src => src.type == "Income")).map (fun s => s.name)
      else none
    let inferredEmployer :=
      match employerHint with
      | some h => if h.data = [] then employerFromIncome else some h
      | none => employerFromIncome
    .ok
      { recurringExpenses := recurring
        monthlyBreakdown := monthlyBreakdown
        incomeSources := income
        expenseByCategory := categories
        expenseByMacro := macroCategories
        totalAverageMonthlyIncome := kpis.totalAverageMonthlyIncome
        monthlyAverageSavings := kpis.monthlyAverageSavings
        monthlyAverageSpend := kpis.monthlyAverageSpend
        totalTransactions := kpis.totalTransactions
        totalInflowTransactions := kpis.totalInflowTransactions
        totalOutflowTransactions := kpis.totalOutflowTransactions
        recurringEssential := kpis.recurringEssential
        recurringLifestyle := kpis.recurringLifestyle
        leakageHotspots := kpis.leakageHotspots
        monthsCovered := kpis.monthsCovered
        startDate := ((monthlyBreakdown.head?).map (fun b => b.month)).getD ""
        endDate := ((monthlyBreakdown.getLast?).map (fun b => b.month)).getD ""
        employer := inferredEmployer
        employmentType := employmentType.getD "" }

/-! ## Claim C1 — recurring-expense retention condition

`summarizeRecurringExpenses` was meant to retain a bucket only when it
spans at least 2 distinct months, but the `monthCount` update
(bankAnalyzer.ts:270) builds a set of the *numbers* `0..monthCount-1`
plus the month *string*, so `monthCount` just counts transactions.  A
merchant with three same-amount outflows inside one month is therefore
reported with `monthCount = 3` and retained. -/

/-- Three NETFLIX outflows of $16, all in January 2025. -/
def c1Txs : List StandardisedTransaction :=
  [⟨⟨2025, 1, 5⟩, "NETFLIX", -16⟩,
   ⟨⟨2025, 1, 12⟩, "NETFLIX", -16⟩,
   ⟨⟨2025, 1, 20⟩, "NETFLIX", -16⟩]

/-- C1: contrary to the claim, a `(merchantNorm, roundedAbsAmount)` bucket
whose transactions all fall in a single distinct month is *included* in
`recurringExpenses`: all three derived transactions share the month
`2025-01`, yet the detector reports the bucket with `transactionCount = 3`
and `monthCount = 3` (it counts transactions, not distinct months), so
the single-month bucket passes the `monthCount ≥ 2` gate. -/
theorem recurring_detector_includes_single_month_bucket :
    (∀ tx ∈ deriveTransactions c1Txs, tx.monthKey = "2025-01") ∧
    (summarizeRecurringExpenses (deriveTransactions c1Txs)).map
        (fun e => (e.name, e.transactionCount, e.monthCount)) = [("NETFLIX", 3, 3)] := by
  decide

/-! ## Claim C4 — per-category `monthCount`

The same broken set construction appears in `summarizeByCategory`
(bankAnalyzer.ts:309). -/

/-- Two COLES outflows, both in March 2025. -/
def c4Txs : List StandardisedTransaction :=
  [⟨⟨2025, 3, 5⟩, "COLES", -60⟩, ⟨⟨2025, 3, 12⟩, "COLES", -40⟩]

/-- C4: contrary to the claim, `monthCount` of an `ExpenseCategorySummary`
is not the number of distinct months with a transaction in the category:
both Groceries outflows fall in `2025-03` (one distinct month), yet the
summary reports `monthCount = 2` (the transaction count) and accordingly
`averageMonthlySpend = 100 / 2 = 50` instead of `100`. -/
theorem category_summary_monthCount_counts_transactions :
    (∀ tx ∈ deriveTransactions c4Txs, tx.monthKey = "2025-03") ∧
    (summarizeByCategory (deriveTransactions c4Txs) (fun tx => tx.amount)).map
        (fun e => (e.category, e.monthCount, e.totalSpend, e.averageMonthlySpend)) =
      [("Groceries", 2, 100, 50)] := by
  decide

/-! ## Claim C2 — numeric date disambiguation -/

/-- C2 counterexample: the claim says "03/04/2025" parses to day 3,
month 4; the code takes the *first* component as the month when it does
not exceed 12, producing March 4 (day 4, month 3), not April 3. -/
theorem parseDate_ambiguous_defaults_month_first :
    parseDate "03/04/2025" = some ⟨2025, 3, 4⟩ ∧
    (⟨2025, 3, 4⟩ : JsDate) ≠ ⟨2025, 4, 3⟩ := by decide

/-- C2 (amended): for every string whose trimmed form matches the numeric
`D/M/Y` pattern with captures `(a, b, y)`, `parseDate` treats the first
component as the *month* and the second as the *day* unless the first
exceeds 12, in which case the first is the day and the second the month;
"13/01/2025" still parses to day 13 / month 1, while "03/04/2025" parses
to day 4 / month 3. -/
theorem parseDate_component_assignment (s : String) (a b y : ℕ)
    (h : matchSlashPattern (jsTrim s.data) = some (a, b, y)) :
    parseDate s =
      some (jsMakeDate (if y < 100 then 2000 + (y : Int) else (y : Int))
        ((if 12 < a then (b : Int) else (a : Int)) - 1)
        (if 12 < a then (a : Int) else (b : Int))) ∧
    parseDate "13/01/2025" = some ⟨2025, 1, 13⟩ ∧
    parseDate "03/04/2025" = some ⟨2025, 3, 4⟩ := by
  refine ⟨?_, by decide, by decide⟩
  have hne : jsTrim s.data ≠ [] := by
    intro he
    rw [he] at h
    simp [matchSlashPattern] at h
  have hsd : s.data ≠ [] := by
    intro he
    exact hne (by rw [he]; rfl)
  unfold parseDate
  rw [if_neg hsd]
  simp only [h, if_neg hne]
  split <;> simp_all

/-- Concrete instance of `parseDate_component_assignment` at "05/06/07":
the pattern matches with captures (5, 6, 7) and the parse result is
June 5th rendered month-first, `jsMakeDate 2007 4 6` = 2007-05-06. -/
theorem parseDate_component_assignment_checked :
    matchSlashPattern (jsTrim ("05/06/07" : String).data) = some (5, 6, 7) ∧
    (parseDate "05/06/07" =
        some (jsMakeDate (if (7 : ℕ) < 100 then 2000 + ((7 : ℕ) : Int) else ((7 : ℕ) : Int))
          ((if 12 < (5 : ℕ) then ((6 : ℕ) : Int) else ((5 : ℕ) : Int)) - 1)
          (if 12 < (5 : ℕ) then ((5 : ℕ) : Int) else ((6 : ℕ) : Int))) ∧
      parseDate "13/01/2025" = some ⟨2025, 1, 13⟩ ∧
      parseDate "03/04/2025" = some ⟨2025, 3, 4⟩) :=
  ⟨by decide, parseDate_component_assignment "05/06/07" 5 6 7 (by decide)⟩

/-! ## Claim C3 — records in a multi-file batch -/

def c3File1 : String := "Date,Amount\n01/01/2025,5"
def c3File2 : String := "Transaction Date,Value\n02/01/2025,7"

/-- C3 counterexample: with two files whose headers differ, the pipeline
concatenates all rows before building records, so the second file's
header row `Transaction Date,Value` *does* become a data record, keyed by
the FIRST file's header (`Date`/`Amount`) — and so are the second file's
data rows; the batch nevertheless analyses fine (2 transactions), whereas
per-file inference on file 2 would have failed its amount detection. -/
theorem batch_reuses_first_file_header :
    rowsToRecords (([c3File1, c3File2].map parseCsv).flatten) =
      [[("Date", "01/01/2025"), ("Amount", "5")],
       [("Date", "Transaction Date"), ("Amount", "Value")],
       [("Date", "02/01/2025"), ("Amount", "7")]] ∧
    (analyzeBankStatements [c3File1, c3File2] none none).map
        (fun a => a.totalTransactions) = .ok 2 := by
  decide

/-- C3 (amended): in a multi-file batch the record builder runs once over
the concatenated rows: the batch header is the first file's first row,
and every later row — the other files' header rows included — becomes a
record keyed by that single header. -/
theorem rowsToRecords_single_header_for_batch (rows1 rows2 : List (List String))
    (h : rows1 ≠ []) :
    rowsToRecords (rows1 ++ rows2) =
      (rows1.tail ++ rows2).map (toRecord ((rows1.headD []).map jsTrimS)) := by
  cases rows1 with
  | nil => exact absurd rfl h
  | cons hd tl => rfl

/-! ## Claim C7 — debit/credit sign convention -/

def c7DebitRec : Rec :=
  [("Date", "13/01/2025"), ("Description", "X"), ("Debit", "50.00"), ("Credit", "")]
def c7CreditRec : Rec :=
  [("Date", "13/01/2025"), ("Description", "X"), ("Debit", ""), ("Credit", "50.00")]

/-- C7: when no amount column exists but a debit and/or credit column
does, every standardized row's signed amount is
`credit − |debit|`; in particular a record with debit "50.00" and empty
credit standardizes to amount −50, and credit "50.00"/empty debit to +50. -/
theorem debit_credit_sign_convention (src : String) (ci : ColumnInfo) (row : Rec)
    (rest : List Rec) (d : JsDate)
    (hAmt : ci.amountCols = [])
    (hDC : (ci.debitCol.isSome || ci.creditCol.isSome) = true)
    (hDate : parseDate ((recGet row ci.dateCol).getD "") = some d) :
    stdRows src ci (row :: rest) =
      (stdRows src ci rest).map
        (fun l =>
          ⟨d, (recGet row ci.descCol).getD "",
            cleanMoneyOpt (ci.creditCol.bind (recGet row)) -
              jsAbs (cleanMoneyOpt (ci.debitCol.bind (recGet row)))⟩ :: l) ∧
    standardiseRecords [c7DebitRec] "f" = .ok [⟨⟨2025, 1, 13⟩, "X", -50⟩] ∧
    standardiseRecords [c7CreditRec] "f" = .ok [⟨⟨2025, 1, 13⟩, "X", 50⟩] := by
  refine ⟨?_, by decide, by decide⟩
  simp only [stdRows, hDate, hAmt, hDC, if_true]

/-- Concrete instance of `debit_credit_sign_convention`: the debit/credit
branch fires on `c7DebitRec` with the inferred columns. -/
theorem debit_credit_sign_convention_checked :
    (⟨"Date", "Description", [], none, some "Debit", some "Credit"⟩ :
        ColumnInfo).amountCols = [] ∧
    (((⟨"Date", "Description", [], none, some "Debit", some "Credit"⟩ :
        ColumnInfo).debitCol.isSome ||
      (⟨"Date", "Description", [], none, some "Debit", some "Credit"⟩ :
        ColumnInfo).creditCol.isSome) = true) ∧
    parseDate ((recGet c7DebitRec (⟨"Date", "Description", [], none, some "Debit",
        some "Credit"⟩ : ColumnInfo).dateCol).getD "") = some ⟨2025, 1, 13⟩ ∧
    (stdRows "w" ⟨"Date", "Description", [], none, some "Debit", some "Credit"⟩
        (c7DebitRec :: []) =
      (stdRows "w" ⟨"Date", "Description", [], none, some "Debit", some "Credit"⟩ []).map
        (fun l =>
          ⟨⟨2025, 1, 13⟩,
            (recGet c7DebitRec (⟨"Date", "Description", [], none, some "Debit",
                some "Credit"⟩ : ColumnInfo).descCol).getD "",
            cleanMoneyOpt ((⟨"Date", "Description", [], none, some "Debit",
                some "Credit"⟩ : ColumnInfo).creditCol.bind (recGet c7DebitRec)) -
              jsAbs (cleanMoneyOpt ((⟨"Date", "Description", [], none, some "Debit",
                some "Credit"⟩ : ColumnInfo).debitCol.bind (recGet c7DebitRec)))⟩ :: l) ∧
      standardiseRecords [c7DebitRec] "f" = .ok [⟨⟨2025, 1, 13⟩, "X", -50⟩] ∧
      standardiseRecords [c7CreditRec] "f" = .ok [⟨⟨2025, 1, 13⟩, "X", 50⟩]) :=
  ⟨by decide, by decide, by decide,
   debit_credit_sign_convention "w" ⟨"Date", "Description", [], none, some "Debit",
     some "Credit"⟩ c7DebitRec [] ⟨2025, 1, 13⟩ (by decide) (by decide) (by decide)⟩

/-! ## Claim C8 — zero valid rows -/

/-- C8: an input batch whose parsed row list is empty flows through the
whole pipeline without an error: the result is an analysis whose
collections are all empty and whose numeric KPIs are all 0 (the
`length || 1` guards make the averages 0/1), with empty start/end dates. -/
theorem empty_parse_yields_zero_analysis (files : List String) (eh et : Option String)
    (h : (files.map parseCsv).flatten = []) :
    (analyzeBankStatements files eh et).map (fun a => a.recurringExpenses) = .ok [] ∧
    (analyzeBankStatements files eh et).map (fun a => a.monthlyBreakdown) = .ok [] ∧
    (analyzeBankStatements files eh et).map (fun a => a.incomeSources) = .ok [] ∧
    (analyzeBankStatements files eh et).map (fun a => a.expenseByCategory) = .ok [] ∧
    (analyzeBankStatements files eh et).map (fun a => a.expenseByMacro) = .ok [] ∧
    (analyzeBankStatements files eh et).map (fun a => a.totalAverageMonthlyIncome) = .ok 0 ∧
    (analyzeBankStatements files eh et).map (fun a => a.monthlyAverageSavings) = .ok 0 ∧
    (analyzeBankStatements files eh et).map (fun a => a.monthlyAverageSpend) = .ok 0 ∧
    (analyzeBankStatements files eh et).map (fun a => a.totalTransactions) = .ok 0 ∧
    (analyzeBankStatements files eh et).map (fun a => a.totalInflowTransactions) = .ok 0 ∧
    (analyzeBankStatements files eh et).map (fun a => a.totalOutflowTransactions) = .ok 0 ∧
    (analyzeBankStatements files eh et).map (fun a => a.recurringEssential) = .ok [] ∧
    (analyzeBankStatements files eh et).map (fun a => a.recurringLifestyle) = .ok [] ∧
    (analyzeBankStatements files eh et).map (fun a => a.leakageHotspots) = .ok [] ∧
    (analyzeBankStatements files eh et).map (fun a => a.monthsCovered) = .ok [] ∧
    (analyzeBankStatements files eh et).map (fun a => a.startDate) = .ok "" ∧
    (analyzeBankStatements files eh et).map (fun a => a.endDate) = .ok "" := by
  unfold analyzeBankStatements
  rw [h]
  exact ⟨rfl, rfl, rfl, rfl, rfl, rfl, rfl, rfl, rfl, rfl, rfl, rfl, rfl, rfl, rfl, rfl, rfl⟩

/-- Concrete instance of `empty_parse_yields_zero_analysis` on a batch of
one blank file and one file of empty cells. -/
theorem empty_parse_yields_zero_analysis_checked :
    ((["", " ,, \n"] : List String).map parseCsv).flatten = [] ∧
    (analyzeBankStatements ["", " ,, \n"] none none).map (fun a => a.recurringExpenses) = .ok [] ∧
    (analyzeBankStatements ["", " ,, \n"] none none).map (fun a => a.totalTransactions) = .ok 0 ∧
    (analyzeBankStatements ["", " ,, \n"] none none).map (fun a => a.monthlyAverageSpend) = .ok 0 :=
  ⟨by decide,
   (empty_parse_yields_zero_analysis ["", " ,, \n"] none none (by decide)).1,
   (empty_parse_yields_zero_analysis ["", " ,, \n"] none none (by decide)).2.2.2.2.2.2.2.2.1,
   (empty_parse_yields_zero_analysis ["", " ,, \n"] none none (by decide)).2.2.2.2.2.2.2.1⟩

/-! ## Claim C9 — merchant normalization is idempotent -/

theorem upChar_keep (c : Char) (hc : keepMerchChar c = true) : upChar c = c := by
  simp only [keepMerchChar, decide_eq_true_eq] at hc
  unfold upChar
  rw [if_neg]
  rintro ⟨h1, h2⟩
  rcases hc with ⟨ha, hb⟩ | ⟨ha, hb⟩ | rfl
  · exact absurd (le_trans h1 hb) (by decide)
  · exact absurd (le_trans h1 hb) (by decide)
  · exact absurd h1 (by decide)

theorem map_upChar_of_keep (l : List Char) (h : ∀ c ∈ l, keepMerchChar c = true) :
    l.map upChar = l := by
  induction l with
  | nil => rfl
  | cons a l ih =>
    rw [List.map_cons, upChar_keep a (h a (List.mem_cons_self a l)),
      ih (fun c hc => h c (List.mem_cons_of_mem a hc))]

theorem squeezeSpaces_cons_ne (c : Char) (hc : c ≠ ' ') (t : List Char) :
    squeezeSpaces (c :: t) = c :: squeezeSpaces t := by
  cases t with
  | nil => rfl
  | cons c2 r => simp [squeezeSpaces, hc]

theorem squeezeSpaces_cons_space (t : List Char) :
    squeezeSpaces (' ' :: t) = ' ' :: squeezeSpaces (t.dropWhile (fun c => c == ' ')) := by
  induction t with
  | nil => rfl
  | cons c2 r ih =>
    by_cases h2 : c2 = ' '
    · subst h2
      rw [show squeezeSpaces (' ' :: ' ' :: r) = squeezeSpaces (' ' :: r) from by
        simp [squeezeSpaces]]
      rw [ih]
      simp [List.dropWhile_cons]
    · rw [show squeezeSpaces (' ' :: c2 :: r) = ' ' :: squeezeSpaces (c2 :: r) from by
        simp [squeezeSpaces, h2]]
      simp [List.dropWhile_cons, h2]

theorem squeezeSpaces_head (c : Char) (t : List Char) :
    (squeezeSpaces (c :: t)).head? = some c := by
  by_cases hc : c = ' '
  · subst hc
    rw [squeezeSpaces_cons_space]
    rfl
  · rw [squeezeSpaces_cons_ne c hc]
    rfl

theorem squeezeSpaces_chain' (l : List Char) :
    List.Chain' (fun a b => ¬(a = ' ' ∧ b = ' ')) (squeezeSpaces l) := by
  induction l using squeezeSpaces.induct with
  | case1 => simp [squeezeSpaces]
  | case2 c => simp [squeezeSpaces]
  | case3 c1 c2 rest hcond ih =>
    rw [show squeezeSpaces (c1 :: c2 :: rest) = squeezeSpaces (c2 :: rest) from by
      simp [squeezeSpaces, hcond.1, hcond.2]]
    exact ih
  | case4 c1 c2 rest hcond ih =>
    rw [show squeezeSpaces (c1 :: c2 :: rest) = c1 :: squeezeSpaces (c2 :: rest) from by
      simp [squeezeSpaces, hcond]]
    rw [List.chain'_cons']
    refine ⟨fun y hy => ?_, ih⟩
    rw [squeezeSpaces_head] at hy
    cases hy
    exact hcond

theorem squeezeSpaces_eq_self (l : List Char)
    (h : List.Chain' (fun a b => ¬(a = ' ' ∧ b = ' ')) l) : squeezeSpaces l = l := by
  induction l using squeezeSpaces.induct with
  | case1 => rfl
  | case2 c => rfl
  | case3 c1 c2 rest hcond ih =>
    exact absurd hcond (List.chain'_cons.mp h).1
  | case4 c1 c2 rest hcond ih =>
    rw [show squeezeSpaces (c1 :: c2 :: rest) = c1 :: squeezeSpaces (c2 :: rest) from by
      simp [squeezeSpaces, hcond]]
    rw [ih (List.chain'_cons.mp h).2]

theorem mem_squeezeSpaces (l : List Char) (c : Char) (h : c ∈ squeezeSpaces l) : c ∈ l := by
  induction l using squeezeSpaces.induct with
  | case1 => simp [squeezeSpaces] at h
  | case2 d => simpa [squeezeSpaces] using h
  | case3 c1 c2 rest hcond ih =>
    rw [show squeezeSpaces (c1 :: c2 :: rest) = squeezeSpaces (c2 :: rest) from by
      simp [squeezeSpaces, hcond.1, hcond.2]] at h
    exact List.mem_cons_of_mem c1 (ih h)
  | case4 c1 c2 rest hcond ih =>
    rw [show squeezeSpaces (c1 :: c2 :: rest) = c1 :: squeezeSpaces (c2 :: rest) from by
      simp [squeezeSpaces, hcond]] at h
    rcases List.mem_cons.mp h with rfl | h
    · exact List.mem_cons_self c (c2 :: rest)
    · exact List.mem_cons_of_mem c1 (ih h)

/-- `jsTrim` written with Mathlib's right-trim. -/
theorem jsTrim_eq (l : List Char) :
    jsTrim l = (l.dropWhile jsWhitespace).rdropWhile jsWhitespace := rfl

theorem mem_jsTrim (l : List Char) (c : Char) (h : c ∈ jsTrim l) : c ∈ l := by
  rw [jsTrim_eq] at h
  exact (List.dropWhile_suffix jsWhitespace).subset
    ((List.rdropWhile_prefix jsWhitespace _).subset h)

theorem chain'_jsTrim {R : Char → Char → Prop} (l : List Char)
    (h : List.Chain' R l) : List.Chain' R (jsTrim l) := by
  rw [jsTrim_eq]
  obtain ⟨pre, hpre⟩ := List.dropWhile_suffix (l := l) jsWhitespace
  have hdr : List.Chain' R (l.dropWhile jsWhitespace) :=
    (List.chain'_append.mp (hpre ▸ h)).2.1
  obtain ⟨suf, hsuf⟩ := List.rdropWhile_prefix jsWhitespace (l.dropWhile jsWhitespace)
  exact (List.chain'_append.mp (hsuf ▸ hdr)).1

theorem jsTrim_head_not_ws (l : List Char) (h : 0 < (jsTrim l).length) :
    jsWhitespace ((jsTrim l).get ⟨0, h⟩) = false := by
  have hpre := List.rdropWhile_prefix jsWhitespace (l.dropWhile jsWhitespace)
  have hlen : 0 < (l.dropWhile jsWhitespace).length :=
    lt_of_lt_of_le (jsTrim_eq l ▸ h) hpre.length_le
  have hz := List.dropWhile_get_zero_not (p := jsWhitespace) l hlen
  have heq : (jsTrim l).get ⟨0, h⟩ =
      (l.dropWhile jsWhitespace).get ⟨0, hlen⟩ := by
    simp only [List.get_eq_getElem]
    exact (jsTrim_eq l ▸ hpre).getElem (jsTrim_eq l ▸ h)
  rw [heq]
  simpa using hz

theorem jsTrim_last_not_ws (l : List Char) (h : jsTrim l ≠ []) :
    jsWhitespace ((jsTrim l).getLast h) = false := by
  have := List.rdropWhile_last_not (p := jsWhitespace)
    (l := l.dropWhile jsWhitespace) (jsTrim_eq l ▸ h)
  simpa [← jsTrim_eq] using this

/-- A character list that is non-empty, made of `[A-Z0-9 ]` characters,
with no two adjacent spaces and no whitespace at either end, is a fixed
point of the normalizer. -/
theorem normaliseMerchant_fixed (t : List Char) (hne : t ≠ [])
    (hkeep : ∀ c ∈ t, keepMerchChar c = true)
    (hchain : List.Chain' (fun a b => ¬(a = ' ' ∧ b = ' ')) t)
    (hhead : ∀ h : 0 < t.length, jsWhitespace (t.get ⟨0, h⟩) = false)
    (hlast : ∀ h : t ≠ [], jsWhitespace (t.getLast h) = false) :
    normaliseMerchant (String.mk t) = String.mk t := by
  have h1 : t.map upChar = t := map_upChar_of_keep t hkeep
  have h2 : t.filter keepMerchChar = t := List.filter_eq_self.mpr hkeep
  have h3 : squeezeSpaces t = t := squeezeSpaces_eq_self t hchain
  have h4 : jsTrim t = t := by
    rw [jsTrim_eq]
    have hdw : t.dropWhile jsWhitespace = t :=
      List.dropWhile_eq_self_iff.mpr (fun hl => by
        have hh := hhead hl
        simp only [List.get_eq_getElem] at hh
        simp [hh])
    rw [hdw]
    exact List.rdropWhile_eq_self_iff.mpr (fun hl => by simp [hlast hl])
  simp only [normaliseMerchant]
  rw [if_neg hne, h1, h2, h3, h4, if_neg hne]

/-- The normalizer's output is either the "UNKNOWN" fallback or a string
whose characters witness the fixed-point conditions. -/
theorem normaliseMerchant_cases (s : String) :
    normaliseMerchant s = "UNKNOWN" ∨
    (∃ t : List Char, normaliseMerchant s = String.mk t ∧ t ≠ [] ∧
      (∀ c ∈ t, keepMerchChar c = true) ∧
      List.Chain' (fun a b => ¬(a = ' ' ∧ b = ' ')) t ∧
      (∀ h : 0 < t.length, jsWhitespace (t.get ⟨0, h⟩) = false) ∧
      (∀ h : t ≠ [], jsWhitespace (t.getLast h) = false)) := by
  simp only [normaliseMerchant]
  by_cases hd : s.data = []
  · left
    rw [if_pos hd]
  · rw [if_neg hd]
    by_cases hte : jsTrim (squeezeSpaces ((s.data.map upChar).filter keepMerchChar)) = []
    · left
      rw [if_pos hte]
    · right
      refine ⟨jsTrim (squeezeSpaces ((s.data.map upChar).filter keepMerchChar)),
        by rw [if_neg hte], hte, ?_, ?_, ?_, ?_⟩
      · intro c hc
        exact List.of_mem_filter (mem_squeezeSpaces _ c (mem_jsTrim _ c hc))
      · exact chain'_jsTrim _ (squeezeSpaces_chain' _)
      · exact fun h => jsTrim_head_not_ws _ h
      · exact fun h => jsTrim_last_not_ws _ h

/-- C9: `normaliseMerchant` is idempotent — normalizing an
already-normalized merchant name (the "UNKNOWN" fallback included)
changes nothing. -/
theorem normaliseMerchant_idempotent (s : String) :
    normaliseMerchant (normaliseMerchant s) = normaliseMerchant s := by
  rcases normaliseMerchant_cases s with h | ⟨t, heq, hne, hkeep, hchain, hhead, hlast⟩
  · rw [h]
    decide
  · rw [heq]
    exact normaliseMerchant_fixed t hne hkeep hchain hhead hlast

/-! ## Claim C6 — quoted fields round-trip through the tokenizer -/

/-- The CSV writing convention for a quoted field's body: double every
embedded double quote. -/
def escapeQuotes : List Char → List Char
  | [] => []
  | c :: rest => (if c = '"' then ['"', '"'] else [c]) ++ escapeQuotes rest

/-- A field rendered as a quoted CSV cell. -/
def quoteField (s : String) : String :=
  String.mk ('"' :: (escapeQuotes s.data ++ ['"']))

theorem csvRun_outside_quote (rest : List Char) (st : CsvState) :
    csvRun ('"' :: rest) .outside st = csvRun rest .inside st := by
  simp [csvRun, csvStepOutside]

theorem csvRun_inside_other (c : Char) (hc : c ≠ '"') (rest : List Char) (st : CsvState) :
    csvRun (c :: rest) .inside st = csvRun rest .inside ⟨st.cur ++ [c], st.row, st.rows⟩ := by
  simp [csvRun, hc]

theorem csvRun_inside_quote (rest : List Char) (st : CsvState) :
    csvRun ('"' :: rest) .inside st = csvRun rest .insidePend st := by
  simp [csvRun]

theorem csvRun_pend_quote (rest : List Char) (st : CsvState) :
    csvRun ('"' :: rest) .insidePend st = csvRun rest .inside ⟨st.cur ++ ['"'], st.row, st.rows⟩ := by
  simp [csvRun]

/-- Inside quotes, the escaped body of a field is consumed verbatim into
the current cell: commas, newlines and carriage returns are data, and
each doubled quote contributes one literal quote. -/
theorem csvRun_escape (s : List Char) (rest : List Char) (st : CsvState) :
    csvRun (escapeQuotes s ++ rest) .inside st =
      csvRun rest .inside ⟨st.cur ++ s, st.row, st.rows⟩ := by
  induction s generalizing st with
  | nil => simp [escapeQuotes]
  | cons c cs ih =>
    by_cases hc : c = '"'
    · subst hc
      have he : escapeQuotes ('"' :: cs) = '"' :: '"' :: escapeQuotes cs := by
        simp [escapeQuotes]
      rw [he, List.cons_append, List.cons_append, csvRun_inside_quote, csvRun_pend_quote, ih]
      simp [List.append_assoc]
    · have he : escapeQuotes (c :: cs) = c :: escapeQuotes cs := by
        simp [escapeQuotes, hc]
      rw [he, List.cons_append, csvRun_inside_other c hc, ih]
      simp [List.append_assoc]

theorem jsTrim_ne_nil_of_mem (s : List Char) (c : Char) (hm : c ∈ s)
    (hw : jsWhitespace c = false) : jsTrim s ≠ [] := by
  intro h
  unfold jsTrim at h
  have h1 : (s.dropWhile jsWhitespace).reverse.dropWhile jsWhitespace = [] := by
    have h2 := congrArg List.reverse h
    simpa using h2
  rw [List.dropWhile_eq_nil_iff] at h1
  rcases List.mem_append.mp
      ((List.takeWhile_append_dropWhile (p := jsWhitespace) (l := s)) ▸ hm) with hmem | hmem
  · rw [List.mem_takeWhile_imp hmem] at hw
    cases hw
  · rw [h1 c (List.mem_reverse.mpr hmem)] at hw
    cases hw

/-- C6: a quoted CSV field whose content contains an embedded comma and
an embedded newline tokenizes to exactly one row holding exactly that one
field, with the content reproduced verbatim — the commas and newlines are
not separators inside quotes, and each doubled quote collapses to a
single literal quote (the content `s` is recovered from its escaped
rendering). -/
theorem parseCsv_quoted_field_round_trip (s : List Char)
    (hc : ',' ∈ s) (hn : '\n' ∈ s) :
    parseCsv (quoteField (String.mk s)) = [[String.mk s]] := by
  have hsne : s ≠ [] := by rintro rfl; simp at hc
  have htrim : jsTrim s ≠ [] := jsTrim_ne_nil_of_mem s ',' hc (by decide)
  have hchain : csvRun ('"' :: (escapeQuotes s ++ ['"'])) .outside ⟨[], [], []⟩ = [[s]] := by
    rw [csvRun_outside_quote, csvRun_escape, csvRun_inside_quote]
    show csvEnd ⟨[] ++ s, [], []⟩ = [[s]]
    rw [List.nil_append]
    simp only [csvEnd]
    split
    · rfl
    · next hcond => exact absurd (Or.inr ⟨rfl, hsne⟩) hcond
  show ((csvRun ('"' :: (escapeQuotes s ++ ['"'])) .outside ⟨[], [], []⟩).filter
      rowHasContent).map (fun row => row.map String.mk) = [[String.mk s]]
  rw [hchain]
  have hrc : rowHasContent [s] = true := by
    simp [rowHasContent, List.isEmpty_iff, htrim]
  simp [List.filter_cons, hrc]

/-- Concrete instance of `parseCsv_quoted_field_round_trip` on the field
body `a,b` + newline + `c"d` (written with a doubled quote). -/
theorem parseCsv_quoted_field_round_trip_checked :
    (',' ∈ ['a', ',', 'b', '\n', 'c', '"', 'd']) ∧
    ('\n' ∈ ['a', ',', 'b', '\n', 'c', '"', 'd']) ∧
    parseCsv (quoteField (String.mk ['a', ',', 'b', '\n', 'c', '"', 'd'])) =
      [[String.mk ['a', ',', 'b', '\n', 'c', '"', 'd']]] :=
  ⟨by decide, by decide,
   parseCsv_quoted_field_round_trip ['a', ',', 'b', '\n', 'c', '"', 'd']
     (by decide) (by decide)⟩

/-! ## Claim C10 — exact triggers of the fatal errors -/

/-- The two fatal messages differ (whatever the source name). -/
theorem dateErrMsg_ne_amountErrMsg (name : String) : dateErrMsg name ≠ amountErrMsg name := by
  intro h
  have hd := congrArg String.data h
  simp only [dateErrMsg, amountErrMsg, String.data_append] at hd
  exact absurd (List.append_cancel_left hd) (by decide)

/-- The row loop can only throw the missing-amount error. -/
theorem stdRows_error_eq_amount (src : String) (ci : ColumnInfo) (rows : List Rec)
    (e : String) (he : stdRows src ci rows = .error e) : e = amountErrMsg src := by
  induction rows with
  | nil => simp [stdRows] at he
  | cons row rest ih =>
    simp only [stdRows] at he
    split at he
    · exact ih he
    · split at he
      · cases hrec : stdRows src ci rest with
        | ok l => rw [hrec] at he; simp [Except.map] at he
        | error e2 =>
          rw [hrec] at he
          simp only [Except.map, Except.error.injEq] at he
          cases he
          exact ih hrec
      · split at he
        · cases hrec : stdRows src ci rest with
          | ok l => rw [hrec] at he; simp [Except.map] at he
          | error e2 =>
            rw [hrec] at he
            simp only [Except.map, Except.error.injEq] at he
            cases he
            exact ih hrec
        · injection he with h
          exact h.symm

/-- If every row's date fails to parse, the loop drops everything. -/
theorem stdRows_all_dates_unparsable (src : String) (ci : ColumnInfo) (rows : List Rec)
    (h : ∀ row ∈ rows, parseDate ((recGet row ci.dateCol).getD "") = none) :
    stdRows src ci rows = .ok [] := by
  induction rows with
  | nil => rfl
  | cons row rest ih =>
    rw [stdRows, h row (List.mem_cons_self row rest)]
    exact ih (fun r hr => h r (List.mem_cons_of_mem row hr))

/-- With no amount representation at all, the loop throws at the first
row whose date parses. -/
theorem stdRows_error_on_parsable (src : String) (ci : ColumnInfo)
    (hAmt : ci.amountCols = []) (hDeb : ci.debitCol = none) (hCred : ci.creditCol = none)
    (rows : List Rec)
    (h : ∃ row ∈ rows, (parseDate ((recGet row ci.dateCol).getD "")).isSome = true) :
    stdRows src ci rows = .error (amountErrMsg src) := by
  induction rows with
  | nil => simp at h
  | cons row rest ih =>
    cases hpd : parseDate ((recGet row ci.dateCol).getD "") with
    | some d =>
      rw [stdRows, hpd, hAmt]
      rw [hDeb, hCred]
      rfl
    | none =>
      obtain ⟨r, hr, hsome⟩ := h
      rcases List.mem_cons.mp hr with rfl | hr
      · rw [hpd] at hsome; simp at hsome
      · rw [stdRows, hpd]
        exact ih ⟨r, hr, hsome⟩

/-- C10: the fatal errors have narrower triggers than per-file checks —
(1) an empty record list standardises to the empty result and never
errors; (2) with at least one record, the missing-date-column error fires
exactly when the *first* record's keys contain no "date" key (later
records' keys are never consulted), and (3) never fires once the first
record has a date key; (4) when the first record's keys yield no amount
column, no debit column and no credit column, a batch whose dates all
fail to parse still completes with the empty result, while (5) the
missing-amount-columns error fires as soon as some record's date parses. -/
theorem missing_column_error_triggers :
    (∀ name, standardiseRecords [] name = .ok []) ∧
    (∀ name (r : Rec) (rest : List Rec),
        detectColumn (r.map Prod.fst) ["date"] = none →
        standardiseRecords (r :: rest) name = .error (dateErrMsg name)) ∧
    (∀ name (r : Rec) (rest : List Rec) (c : String),
        detectColumn (r.map Prod.fst) ["date"] = some c →
        standardiseRecords (r :: rest) name ≠ .error (dateErrMsg name)) ∧
    (∀ name (r : Rec) (rest : List Rec) (c : String),
        detectColumn (r.map Prod.fst) ["date"] = some c →
        (r.map Prod.fst).filter (fun col => strIncludes (toLowerStr col) "amount") = [] →
        detectColumn (r.map Prod.fst) ["debit", "withdrawal"] = none →
        detectColumn (r.map Prod.fst) ["credit", "deposit"] = none →
        (∀ row ∈ r :: rest, parseDate ((recGet row c).getD "") = none) →
        standardiseRecords (r :: rest) name = .ok []) ∧
    (∀ name (r : Rec) (rest : List Rec) (c : String),
        detectColumn (r.map Prod.fst) ["date"] = some c →
        (r.map Prod.fst).filter (fun col => strIncludes (toLowerStr col) "amount") = [] →
        detectColumn (r.map Prod.fst) ["debit", "withdrawal"] = none →
        detectColumn (r.map Prod.fst) ["credit", "deposit"] = none →
        (∃ row ∈ r :: rest, (parseDate ((recGet row c).getD "")).isSome = true) →
        standardiseRecords (r :: rest) name = .error (amountErrMsg name)) := by
  refine ⟨fun name => rfl, ?_, ?_, ?_, ?_⟩
  · intro name r rest hnone
    simp only [standardiseRecords, hnone]
  · intro name r rest c hdate he
    simp only [standardiseRecords, hdate] at he
    exact dateErrMsg_ne_amountErrMsg name (stdRows_error_eq_amount _ _ _ _ he)
  · intro name r rest c hdate hamt hdeb hcred hall
    simp only [standardiseRecords, hdate, hamt, hdeb, hcred]
    exact stdRows_all_dates_unparsable name _ _ hall
  · intro name r rest c hdate hamt hdeb hcred hsome
    simp only [standardiseRecords, hdate, hamt, hdeb, hcred]
    exact stdRows_error_on_parsable name _ rfl rfl rfl _ hsome

/-- Concrete instances of all five clauses of
`missing_column_error_triggers`. -/
theorem missing_column_error_triggers_checked :
    standardiseRecords [] "w" = .ok [] ∧
    (detectColumn (([("Foo", "1")] : Rec).map Prod.fst) ["date"] = none ∧
      standardiseRecords [[("Foo", "1")]] "w" = .error (dateErrMsg "w")) ∧
    (detectColumn (([("Date", "x")] : Rec).map Prod.fst) ["date"] = some "Date" ∧
      standardiseRecords [[("Date", "x")]] "w" ≠ .error (dateErrMsg "w")) ∧
    (standardiseRecords [[("Date", "junk"), ("Other", "y")]] "w" = .ok []) ∧
    (standardiseRecords [[("Date", "13/01/2025"), ("Other", "y")]] "w" =
      .error (amountErrMsg "w")) :=
  ⟨missing_column_error_triggers.1 "w",
   ⟨by decide, missing_column_error_triggers.2.1 "w" [("Foo", "1")] [] (by decide)⟩,
   ⟨by decide, missing_column_error_triggers.2.2.1 "w" [("Date", "x")] [] "Date" (by decide)⟩,
   missing_column_error_triggers.2.2.2.1 "w" [("Date", "junk"), ("Other", "y")] [] "Date"
     (by decide) (by decide) (by decide) (by decide) (by decide),
   missing_column_error_triggers.2.2.2.2 "w" [("Date", "13/01/2025"), ("Other", "y")] [] "Date"
     (by decide) (by decide) (by decide) (by decide) (by decide)⟩

/-! ## Claim C5 — internal transfers -/

theorem mem_dedupFirst_aux (l : List String) (acc : List String) (x : String) :
    (x ∈ l.foldl (fun acc m => if m ∈ acc then acc else acc ++ [m]) acc) ↔
      x ∈ acc ∨ x ∈ l := by
  induction l generalizing acc with
  | nil => simp
  | cons a l ih =>
    simp only [List.foldl_cons]
    by_cases hm : a ∈ acc
    · rw [if_pos hm, ih]
      constructor
      · rintro (hx | hx)
        exacts [Or.inl hx, Or.inr (List.mem_cons_of_mem _ hx)]
      · rintro (hx | hx)
        · exact Or.inl hx
        · rcases List.mem_cons.mp hx with rfl | hx
          exacts [Or.inl hm, Or.inr hx]
    · rw [if_neg hm, ih]
      simp only [List.mem_append, List.mem_singleton, List.mem_cons]
      tauto

theorem mem_dedupFirst (l : List String) (x : String) : x ∈ dedupFirst l ↔ x ∈ l := by
  unfold dedupFirst
  simpa using mem_dedupFirst_aux l [] x

theorem nodup_dedupFirst_aux (l : List String) (acc : List String) (hacc : acc.Nodup) :
    (l.foldl (fun acc m => if m ∈ acc then acc else acc ++ [m]) acc).Nodup := by
  induction l generalizing acc with
  | nil => exact hacc
  | cons a l ih =>
    simp only [List.foldl_cons]
    by_cases hm : a ∈ acc
    · rw [if_pos hm]
      exact ih acc hacc
    · rw [if_neg hm]
      refine ih _ ?_
      simp [List.nodup_append, hacc, hm]

theorem nodup_dedupFirst (l : List String) : (dedupFirst l).Nodup :=
  nodup_dedupFirst_aux l [] List.nodup_nil

theorem filter_beq_of_nodup (l : List String) (k : String) (hn : l.Nodup) (hm : k ∈ l) :
    l.filter (fun m => m == k) = [k] := by
  induction l with
  | nil => simp at hm
  | cons a l ih =>
    rcases List.mem_cons.mp hm with rfl | hm
    · simp only [List.filter_cons, beq_self_eq_true, if_true]
      have hnil : l.filter (fun m => m == k) = [] := by
        rw [List.filter_eq_nil_iff]
        intro x hx
        simp only [beq_iff_eq]
        intro hxa
        exact (List.nodup_cons.mp hn).1 (hxa ▸ hx)
      rw [hnil]
    · have ha : (a == k) = false := by
        simp only [beq_eq_false_iff_ne]
        intro hak
        exact (List.nodup_cons.mp hn).1 (hak ▸ hm)
      simp only [List.filter_cons, ha]
      exact ih (List.nodup_cons.mp hn).2 hm

theorem filter_month_map (A : List DerivedTransaction) (ms : List String) (k : String) :
    (ms.map (mkMonthEntry A)).filter (fun b => b.month == k) =
      (ms.filter (fun m => m == k)).map (mkMonthEntry A) := by
  induction ms with
  | nil => rfl
  | cons m ms ih =>
    simp only [List.map_cons, List.filter_cons]
    have hmo : ((mkMonthEntry A m).month == k) = (m == k) := rfl
    rw [hmo]
    by_cases hmk : (m == k) = true
    · rw [hmk]
      simp only [if_true, List.map_cons, ih]
    · simp only [hmk, Bool.false_eq_true, if_false, ih]

theorem mkMonthEntry_append_internal (txs : List DerivedTransaction) (t : DerivedTransaction)
    (h : t.isInternal = true) :
    mkMonthEntry (txs ++ [t]) t.monthKey =
      ⟨t.monthKey, (mkMonthEntry txs t.monthKey).totalInflow,
       (mkMonthEntry txs t.monthKey).totalOutflow,
       (mkMonthEntry txs t.monthKey).savings,
       (txs.filter (fun tx => tx.monthKey == t.monthKey)).length + 1⟩ := by
  simp [mkMonthEntry, List.filter_append, h]

/-- C5: an internal transfer (normalized merchant containing "TRANSFER")
contributes nothing to recurring detection, to the per-category and
per-macro summaries, or to the income sources, while its month's
`MonthlyBreakdown` entry counts it in `transactionCount` but keeps
`totalInflow`/`totalOutflow`/`savings` exactly as they are without it. -/
theorem internal_transfer_contributes_only_to_count
    (txs : List DerivedTransaction) (t : DerivedTransaction)
    (h : t.isInternal = true) :
    summarizeRecurringExpenses (txs ++ [t]) = summarizeRecurringExpenses txs ∧
    summarizeByCategory (txs ++ [t]) (fun tx => tx.amount) =
      summarizeByCategory txs (fun tx => tx.amount) ∧
    summarizeByMacroCategory (summarizeByCategory (txs ++ [t]) (fun tx => tx.amount)) =
      summarizeByMacroCategory (summarizeByCategory txs (fun tx => tx.amount)) ∧
    summarizeIncome (txs ++ [t]) = summarizeIncome txs ∧
    (summarizeMonthly (txs ++ [t])).filter (fun b => b.month == t.monthKey) =
      [⟨t.monthKey, (mkMonthEntry txs t.monthKey).totalInflow,
        (mkMonthEntry txs t.monthKey).totalOutflow,
        (mkMonthEntry txs t.monthKey).savings,
        (txs.filter (fun tx => tx.monthKey == t.monthKey)).length + 1⟩] := by
  have hout : (txs ++ [t]).filter (fun tx => tx.isOutflow && !tx.isInternal) =
      txs.filter (fun tx => tx.isOutflow && !tx.isInternal) := by
    simp [List.filter_append, h]
  have hin : (txs ++ [t]).filter (fun tx => tx.isInflow && !tx.isInternal) =
      txs.filter (fun tx => tx.isInflow && !tx.isInternal) := by
    simp [List.filter_append, h]
  refine ⟨?_, ?_, ?_, ?_, ?_⟩
  · simp only [summarizeRecurringExpenses, hout]
  · simp only [summarizeByCategory, hout]
  · simp only [summarizeByCategory, hout]
  · simp only [summarizeIncome, hin]
  · have hnd : ((dedupFirst ((txs ++ [t]).map (fun tx => tx.monthKey))).insertionSort
        (fun a b => charListLe a.data b.data = true)).Nodup :=
      (List.perm_insertionSort _ _).nodup_iff.mpr (nodup_dedupFirst _)
    have hmem : t.monthKey ∈ (dedupFirst ((txs ++ [t]).map (fun tx => tx.monthKey))).insertionSort
        (fun a b => charListLe a.data b.data = true) :=
      (List.perm_insertionSort _ _).mem_iff.mpr ((mem_dedupFirst _ _).mpr (by simp))
    simp only [summarizeMonthly]
    rw [filter_month_map, filter_beq_of_nodup _ _ hnd hmem, List.map_cons, List.map_nil,
      mkMonthEntry_append_internal txs t h]

/-- An internal transfer and an ordinary grocery outflow, both in
January 2025, used to instantiate the C5 theorem. -/
def c5Internal : DerivedTransaction :=
  ⟨⟨2025, 1, 7⟩, "TRANSFER TO SAVINGS", -200, "2025-01", false, true, 200,
   "TRANSFER TO SAVINGS", 7, true⟩

def c5Coles : DerivedTransaction :=
  ⟨⟨2025, 1, 3⟩, "COLES", -60, "2025-01", false, true, 60, "COLES", 3, false⟩

/-- Concrete instance of `internal_transfer_contributes_only_to_count`. -/
theorem internal_transfer_contributes_only_to_count_checked :
    c5Internal.isInternal = true ∧
    (summarizeRecurringExpenses ([c5Coles] ++ [c5Internal]) =
        summarizeRecurringExpenses [c5Coles] ∧
      summarizeByCategory ([c5Coles] ++ [c5Internal]) (fun tx => tx.amount) =
        summarizeByCategory [c5Coles] (fun tx => tx.amount) ∧
      summarizeByMacroCategory
          (summarizeByCategory ([c5Coles] ++ [c5Internal]) (fun tx => tx.amount)) =
        summarizeByMacroCategory (summarizeByCategory [c5Coles] (fun tx => tx.amount)) ∧
      summarizeIncome ([c5Coles] ++ [c5Internal]) = summarizeIncome [c5Coles] ∧
      (summarizeMonthly ([c5Coles] ++ [c5Internal])).filter
          (fun b => b.month == c5Internal.monthKey) =
        [⟨c5Internal.monthKey, (mkMonthEntry [c5Coles] c5Internal.monthKey).totalInflow,
          (mkMonthEntry [c5Coles] c5Internal.monthKey).totalOutflow,
          (mkMonthEntry [c5Coles] c5Internal.monthKey).savings,
          (([c5Coles] : List DerivedTransaction).filter
            (fun tx => tx.monthKey == c5Internal.monthKey)).length + 1⟩]) :=
  ⟨by decide, internal_transfer_contributes_only_to_count [c5Coles] c5Internal (by decide)⟩

/-- Concrete instance of `rowsToRecords_single_header_for_batch`. -/
theorem rowsToRecords_single_header_for_batch_checked :
    ([["Date"], ["1/1/25"]] : List (List String)) ≠ [] ∧
    rowsToRecords ([["Date"], ["1/1/25"]] ++ [["Hdr"], ["2/1/25"]]) =
      (([["Date"], ["1/1/25"]] : List (List String)).tail ++ [["Hdr"], ["2/1/25"]]).map
        (toRecord ((([["Date"], ["1/1/25"]] : List (List String)).headD []).map jsTrimS)) :=
  ⟨by decide,
   rowsToRecords_single_header_for_batch [["Date"], ["1/1/25"]] [["Hdr"], ["2/1/25"]]
     (by decide)⟩

end BankAnalyzer
